import Mathlib

set_option maxHeartbeats 1000000

/-! # Verification of the WP Amelia proxy handlers

Shallow embedding of `src/api/amelia-proxy.js`, which contains two
serverless handler variants for the same endpoint: a REST-transport
variant (helpers `cleanBaseUrl`, `buildAmeliaUrl`) and an ajax-transport
variant. JS strings are modelled as lists of characters. -/

namespace AmeliaProxy

/-- JS strings as lists of characters. -/
abbrev Str := List Char

/-- Convert a Lean string literal to the `Str` model. -/
def jstr (s : String) : Str := s.toList

/-- Whitespace for JS `String.prototype.trim`: tab through carriage return,
space, NBSP, and the Unicode space separators / line terminators / BOM. -/
def isJsWs (c : Char) : Bool :=
  let n := c.toNat
  (9 ≤ n && n ≤ 13) || n = 32 || n = 160 || n = 0x1680 ||
  (0x2000 ≤ n && n ≤ 0x200A) || n = 0x2028 || n = 0x2029 ||
  n = 0x202F || n = 0x205F || n = 0x3000 || n = 0xFEFF

/-- Drop trailing characters satisfying `p`. -/
def dropTrailing (p : Char → Bool) (s : Str) : Str :=
  (s.reverse.dropWhile p).reverse

/-- JS `s.trim()`. -/
def jsTrim (s : Str) : Str :=
  dropTrailing isJsWs (s.dropWhile isJsWs)

/-- JS `s.replace(/\/+$/, '')`: remove trailing slashes. -/
def stripTrailingSlashes (s : Str) : Str :=
  dropTrailing (fun c => c == '/') s

/-- JS `s.match(/^https?:\/\//)` viewed as a boolean test. -/
def matchesHttpProto (s : Str) : Bool :=
  (jstr "https://").isPrefixOf s || (jstr "http://").isPrefixOf s

/-- JS `s.replace(/^\//, '')`: remove one leading slash if present. -/
def stripOneLeadingSlash (s : Str) : Str :=
  match s with
  | '/' :: r => r
  | other => other

/-- JS `hay.includes(needle)`. -/
def strIncludes (s sub : Str) : Bool :=
  if sub.isPrefixOf s then true
  else
    match s with
    | [] => false
    | _ :: t => strIncludes t sub

/-- JS `s.toLowerCase()` on one character (ASCII range; the handler only
tests for the ASCII text `<html`). -/
def jsCharToLower (c : Char) : Char :=
  if 65 ≤ c.toNat ∧ c.toNat ≤ 90 then Char.ofNat (c.toNat + 32) else c

/-- JS `s.toLowerCase()`. -/
def jsToLower (s : Str) : Str := s.map jsCharToLower

/-- Characters left unescaped by JS `encodeURIComponent`:
alphanumerics and `- _ . ! ~ * ' ( )` (39 is the apostrophe). -/
def uriUnreserved (c : Char) : Bool :=
  c.isAlpha || c.isDigit || c = '-' || c = '_' || c = '.' || c = '!' ||
  c = '~' || c = '*' || c.toNat = 39 || c = '(' || c = ')'

/-- Hex digit character for a value below 16 (uppercase, as produced by
`encodeURIComponent`). -/
def hexDigitChar (n : Nat) : Char :=
  if n < 10 then Char.ofNat (48 + n) else Char.ofNat (55 + n)

/-- Percent-escape of one byte. -/
def byteHex (b : Nat) : Str :=
  ['%', hexDigitChar (b / 16), hexDigitChar (b % 16)]

/-- UTF-8 bytes of one character. -/
def utf8Bytes (c : Char) : List Nat :=
  let n := c.toNat
  if n < 0x80 then [n]
  else if n < 0x800 then [0xC0 + n / 0x40, 0x80 + n % 0x40]
  else if n < 0x10000 then
    [0xE0 + n / 0x1000, 0x80 + (n / 0x40) % 0x40, 0x80 + n % 0x40]
  else
    [0xF0 + n / 0x40000, 0x80 + (n / 0x1000) % 0x40,
     0x80 + (n / 0x40) % 0x40, 0x80 + n % 0x40]

/-- JS `encodeURIComponent`. -/
def encodeURIComponent (s : Str) : Str :=
  (s.map (fun c =>
    if uriUnreserved c then [c] else ((utf8Bytes c).map byteHex).flatten)).flatten

/-- JSON values. Numeric literals keep their source lexeme: no claim
depends on numeric evaluation. -/
inductive Json where
  | null : Json
  | bool : Bool → Json
  | num : Str → Json
  | str : Str → Json
  | arr : List Json → Json
  | obj : List (Str × Json) → Json

/-- JSON insignificant whitespace. -/
def skipWs (s : Str) : Str :=
  s.dropWhile (fun c => c == ' ' || c.toNat = 9 || c.toNat = 10 || c.toNat = 13)

/-- Value of a hex digit character. -/
def hexVal (c : Char) : Option Nat :=
  let n := c.toNat
  if 48 ≤ n ∧ n ≤ 57 then some (n - 48)
  else if 65 ≤ n ∧ n ≤ 70 then some (n - 55)
  else if 97 ≤ n ∧ n ≤ 102 then some (n - 87)
  else none

/-- Prepend a character to the string component of a parse result. -/
def consParsed (c : Char) : Option (Str × Str) → Option (Str × Str)
  | some (cs, rest) => some (c :: cs, rest)
  | none => none

/-- Body of a JSON string literal, after the opening quote (34 is the
double quote, 92 the backslash). -/
def parseStringBody : Str → Option (Str × Str)
  | [] => none
  | c :: r =>
    if c.toNat = 34 then some ([], r)
    else if c.toNat = 92 then
      match r with
      | [] => none
      | e :: r2 =>
        if e.toNat = 34 then consParsed (Char.ofNat 34) (parseStringBody r2)
        else if e.toNat = 92 then consParsed (Char.ofNat 92) (parseStringBody r2)
        else if e = '/' then consParsed '/' (parseStringBody r2)
        else if e = 'b' then consParsed (Char.ofNat 8) (parseStringBody r2)
        else if e = 'f' then consParsed (Char.ofNat 12) (parseStringBody r2)
        else if e = 'n' then consParsed (Char.ofNat 10) (parseStringBody r2)
        else if e = 'r' then consParsed (Char.ofNat 13) (parseStringBody r2)
        else if e = 't' then consParsed (Char.ofNat 9) (parseStringBody r2)
        else if e = 'u' then
          match r2 with
          | h1 :: h2 :: h3 :: h4 :: r3 =>
            match hexVal h1, hexVal h2, hexVal h3, hexVal h4 with
            | some a, some b, some c2, some d =>
              consParsed (Char.ofNat (((a * 16 + b) * 16 + c2) * 16 + d))
                (parseStringBody r3)
            | _, _, _, _ => none
          | _ => none
        else none
    else if c.toNat < 32 then none
    else consParsed c (parseStringBody r)

/-- Maximal run of decimal digits. -/
def digitSpan (s : Str) : Str × Str :=
  (s.takeWhile Char.isDigit, s.dropWhile Char.isDigit)

/-- Integer part of a JSON number: `0` or a nonzero digit followed by
digits. -/
def parseIntPart : Str → Option (Str × Str)
  | '0' :: r => some (['0'], r)
  | c :: r =>
    if c.isDigit then
      let (d, r2) := digitSpan r
      some (c :: d, r2)
    else none
  | [] => none

/-- Optional fraction part of a JSON number. -/
def parseFracPart : Str → Option (Str × Str)
  | '.' :: r =>
    let (d, r2) := digitSpan r
    if d.isEmpty then none else some ('.' :: d, r2)
  | s => some ([], s)

/-- Optional exponent part of a JSON number. -/
def parseExpPart : Str → Option (Str × Str)
  | [] => some ([], [])
  | c :: r =>
    if c = 'e' || c = 'E' then
      let (sgn, r1) : Str × Str :=
        match r with
        | '+' :: r2 => (['+'], r2)
        | '-' :: r2 => (['-'], r2)
        | other => ([], other)
      let (d, r2) := digitSpan r1
      if d.isEmpty then none else some (c :: (sgn ++ d), r2)
    else some ([], c :: r)

/-- JSON number lexeme. -/
def parseNumber (s : Str) : Option (Str × Str) :=
  let (neg, s1) : Str × Str :=
    match s with
    | '-' :: r => (['-'], r)
    | other => ([], other)
  match parseIntPart s1 with
  | none => none
  | some (ip, r1) =>
    match parseFracPart r1 with
    | none => none
    | some (fp, r2) =>
      match parseExpPart r2 with
      | none => none
      | some (ep, r3) => some (neg ++ ip ++ fp ++ ep, r3)

mutual

/-- One JSON value; `fuel` bounds the nesting depth. -/
def parseValue : Nat → Str → Option (Json × Str)
  | 0, _ => none
  | _ + 1, [] => none
  | fuel + 1, c :: rest =>
    if c = 'n' then
      if (jstr "ull").isPrefixOf rest then some (Json.null, rest.drop 3) else none
    else if c = 't' then
      if (jstr "rue").isPrefixOf rest then some (Json.bool true, rest.drop 3) else none
    else if c = 'f' then
      if (jstr "alse").isPrefixOf rest then some (Json.bool false, rest.drop 4) else none
    else if c.toNat = 34 then
      match parseStringBody rest with
      | some (cs, r) => some (Json.str cs, r)
      | none => none
    else if c = '[' then
      match skipWs rest with
      | ']' :: r => some (Json.arr [], r)
      | s1 =>
        match parseElems fuel s1 with
        | some (vs, r) => some (Json.arr vs, r)
        | none => none
    else if c = '{' then
      match skipWs rest with
      | '}' :: r => some (Json.obj [], r)
      | s1 =>
        match parseMembers fuel s1 with
        | some (ms, r) => some (Json.obj ms, r)
        | none => none
    else
      match parseNumber (c :: rest) with
      | some (lex, r) => some (Json.num lex, r)
      | none => none

/-- Comma-separated array elements up to the closing bracket. -/
def parseElems : Nat → Str → Option (List Json × Str)
  | 0, _ => none
  | fuel + 1, s =>
    match parseValue fuel s with
    | none => none
    | some (v, r) =>
      match skipWs r with
      | ',' :: r2 =>
        match parseElems fuel (skipWs r2) with
        | some (vs, r3) => some (v :: vs, r3)
        | none => none
      | ']' :: r2 => some ([v], r2)
      | _ => none

/-- Comma-separated object members up to the closing brace. -/
def parseMembers : Nat → Str → Option (List (Str × Json) × Str)
  | 0, _ => none
  | fuel + 1, s =>
    match s with
    | c :: r =>
      if c.toNat = 34 then
        match parseStringBody r with
        | some (k, r1) =>
          match skipWs r1 with
          | ':' :: r2 =>
            match parseValue fuel (skipWs r2) with
            | some (v, r3) =>
              match skipWs r3 with
              | ',' :: r4 =>
                match parseMembers fuel (skipWs r4) with
                | some (ms, r5) => some ((k, v) :: ms, r5)
                | none => none
              | '}' :: r4 => some ([(k, v)], r4)
              | _ => none
            | none => none
          | _ => none
        | none => none
      else none
    | [] => none

end

/-- Model of JS `JSON.parse` succeeding: parse one value surrounded by
whitespace, consuming the entire text. -/
def jsonParse (s : Str) : Option Json :=
  match parseValue (s.length + 8) (skipWs s) with
  | some (j, rest) => if skipWs rest = [] then some j else none
  | none => none

/-- C0 control or space, stripped from both ends of the input by the
WHATWG URL parser. -/
def isC0OrSpace (c : Char) : Bool := c.toNat ≤ 32

/-- Tab and newline characters, removed everywhere by the WHATWG URL
parser. -/
def isTabOrNewline (c : Char) : Bool := c.toNat = 9 || c.toNat = 10 || c.toNat = 13

/-- Input preprocessing of the WHATWG URL parser. -/
def urlPreprocess (s : Str) : Str :=
  (dropTrailing isC0OrSpace (s.dropWhile isC0OrSpace)).filter
    (fun c => ! isTabOrNewline c)

/-- Strip a literal `https://` or `http://` prefix. -/
def dropHttpProto (s : Str) : Option Str :=
  if (jstr "https://").isPrefixOf s then some (s.drop 8)
  else if (jstr "http://").isPrefixOf s then some (s.drop 7)
  else none

/-- Characters ending the authority component. -/
def isAuthDelim (c : Char) : Bool := c == '/' || c == '?' || c == '#'

/-- Portion after the last `@` (userinfo separator); the whole string
when there is none. -/
def afterLastAt (s : Str) : Str :=
  (s.reverse.takeWhile (fun c => c != '@')).reverse

/-- Forbidden host code points of the WHATWG URL standard (for domains). -/
def forbiddenHostChar (c : Char) : Bool :=
  c.toNat ≤ 31 || c = ' ' || c = '#' || c = '%' || c = '/' || c = ':' ||
  c = '<' || c = '>' || c = '?' || c = '@' || c = '[' || c.toNat = 92 ||
  c = ']' || c = '^' || c = '|' || c.toNat = 127

/-- Host and optional port of an authority (after userinfo removal):
the host must be nonempty and free of forbidden code points, the port
all digits. -/
def validHostPort (s : Str) : Bool :=
  let host := s.takeWhile (fun c => c != ':')
  let rest := s.dropWhile (fun c => c != ':')
  let portOk :=
    match rest with
    | [] => true
    | _ :: p => p.all Char.isDigit
  !host.isEmpty && host.all (fun c => ! forbiddenHostChar c) && portOk

/-- Model of the platform `new URL(s)` constructor succeeding, for the
http(s) inputs this code builds: preprocess per WHATWG, require a
literal http(s) scheme and a well-formed nonempty host with an optional
numeric port. (IPv6 bracket hosts and non-http schemes are out of scope
of the strings `cleanBaseUrl` constructs.) -/
def isValidURL (s : Str) : Bool :=
  let t := urlPreprocess s
  match dropHttpProto t with
  | none => false
  | some rest =>
    validHostPort (afterLastAt (rest.takeWhile (fun c => ! isAuthDelim c)))

/-- The plugin path fragment `cleanBaseUrl` looks for. -/
def wpJsonAmelia : Str := jstr "/wp-json/amelia"

/-- The JS regex `(https?:\/\/[^\/]+)` matched at the current position. -/
def protoHostAt (s : Str) : Option Str :=
  if (jstr "https://").isPrefixOf s then
    let chunk := (s.drop 8).takeWhile (fun c => c != '/')
    if chunk.isEmpty then none else some (jstr "https://" ++ chunk)
  else if (jstr "http://").isPrefixOf s then
    let chunk := (s.drop 7).takeWhile (fun c => c != '/')
    if chunk.isEmpty then none else some (jstr "http://" ++ chunk)
  else none

/-- Leftmost match of the JS regex `(https?:\/\/[^\/]+)`. -/
def firstProtoHost : Str → Option Str
  | [] => none
  | c :: cs =>
    match protoHostAt (c :: cs) with
    | some m => some m
    | none => firstProtoHost cs

/-- `cleanBaseUrl` of the REST variant: trim, strip trailing slashes,
default the scheme to https, validate with `new URL`, and reduce an
already-supplied plugin path to its origin. -/
def cleanBaseUrl (url : Str) : Option Str :=
  let clean0 := stripTrailingSlashes (jsTrim url)
  let clean := if matchesHttpProto clean0 then clean0 else jstr "https://" ++ clean0
  if isValidURL clean then
    if strIncludes clean wpJsonAmelia then
      match firstProtoHost clean with
      | some m => some m
      | none => some clean
    else some clean
  else none

/-- `buildAmeliaUrl` of the REST variant. -/
def buildAmeliaUrl (baseUrl endpoint apiKey : Str) : Str :=
  baseUrl ++ jstr "/wp-json/amelia/v1/" ++ stripOneLeadingSlash endpoint ++
    jstr "?ameliaApiKey=" ++ apiKey

/-- Inline base-URL normalization of the ajax variant (no validation,
no plugin-path reduction). -/
def ajaxCleanBase (baseUrl : Str) : Str :=
  let c := stripTrailingSlashes (jsTrim baseUrl)
  if matchesHttpProto c then c else jstr "https://" ++ c

/-- JS falsiness of an optional string field: absent or empty. -/
def jsFalsyStr (s : Option Str) : Bool :=
  match s with
  | none => true
  | some v => v.isEmpty

/-- Call-path construction of the ajax variant:
`call || '/api/v1/entities'`, then prefix `/api/v1` when missing,
stripping one leading slash. -/
def ajaxApiCall (call : Option Str) : Str :=
  let c :=
    match call with
    | none => jstr "/api/v1/entities"
    | some v => if v.isEmpty then jstr "/api/v1/entities" else v
  if (jstr "/api/v1").isPrefixOf c then c
  else jstr "/api/v1/" ++ stripOneLeadingSlash c

/-- Append caller-supplied query parameters, URL-encoding each key and
value (the `forEach` loop of the ajax variant). -/
def appendQueryParams (u : Str) (qp : Option (List (Str × Str))) : Str :=
  match qp with
  | none => u
  | some ps =>
    ps.foldl
      (fun acc kv =>
        acc ++ '&' :: (encodeURIComponent kv.1 ++ '=' :: encodeURIComponent kv.2))
      u

/-- Full upstream URL of the ajax variant. -/
def ajaxFullUrl (cleanUrl apiCall : Str) (qp : Option (List (Str × Str))) : Str :=
  appendQueryParams
    (cleanUrl ++ jstr "/wp-admin/admin-ajax.php?action=wpamelia_api&call=" ++ apiCall)
    qp

/-- Incoming JSON request body (absent fields are `none`). -/
structure ReqBody where
  baseUrl : Option Str := none
  apiKey : Option Str := none
  call : Option Str := none
  endpoint : Option Str := none
  method : Option Str := none
  body : Option Json := none
  queryParams : Option (List (Str × Str)) := none

/-- Incoming HTTP request. -/
structure Request where
  method : Str
  body : ReqBody

/-- Upstream response: status code and raw text body. -/
structure FetchResponse where
  status : Nat
  body : Str

/-- Outcome of the single outbound `fetch`: a response, or a thrown
transport error with its message and optional `code`. -/
inductive FetchOutcome where
  | success : FetchResponse → FetchOutcome
  | failure : (message : Str) → (code : Option Str) → FetchOutcome

/-- The handler's observable outcome: outer status, JSON body, and the
URL of the outbound fetch when one was attempted. -/
structure HandlerResult where
  status : Nat
  body : Json
  fetched : Option Str

def msgMethodNotAllowed : Str := jstr "Method not allowed"

def msgMissingFields : Str := jstr "Missing required fields: baseUrl and apiKey"

def msgEmptyResponse : Str := jstr "Empty response from WordPress"

def msgEmptyHint : Str :=
  jstr "This usually means: invalid API key, API not enabled, or wrong endpoint"

def msgHtmlError : Str := jstr "WordPress returned HTML instead of JSON"

def msgHtmlHint : Str := jstr "Check that Amelia Pro/Elite is installed with API enabled"

def msgInvalidJson : Str := jstr "Invalid JSON response"

def msgProxyFailed : Str := jstr "Proxy request failed"

def msgCannotReach : Str := jstr "Cannot reach WordPress site"

def msgCannotReachDetail : Str :=
  jstr "The WordPress URL may be incorrect or the site may be down"

def msgRequestFailed : Str := jstr "WP Amelia API request failed"

def msgInvalidBase : Str :=
  jstr "Invalid base URL format. Should be like: https://yoursite.com or https://yoursite.com/wp-json/amelia/v1/"

def msgCheckApiKey : Str :=
  jstr "Check if your API key is valid and your WordPress site is accessible"

/-- Modelled: the runtime SyntaxError text thrown by `response.json()`
on malformed JSON; its exact contents are platform-defined and no claim
depends on them. -/
def msgJsonParseError : Str := jstr "Unexpected token"

/-- Decimal lexeme of a status code, as embedded in the REST error
envelope. -/
def natLexeme (n : Nat) : Str := (toString n).toList

/-- The ajax-variant handler (second document in the source file). -/
def ajaxHandler (req : Request) (net : FetchOutcome) : HandlerResult :=
  if req.method = jstr "OPTIONS" then
    { status := 200, body := Json.null, fetched := none }
  else if req.method ≠ jstr "POST" then
    { status := 405,
      body := Json.obj [(jstr "error", Json.str msgMethodNotAllowed)],
      fetched := none }
  else if jsFalsyStr req.body.baseUrl || jsFalsyStr req.body.apiKey then
    { status := 400,
      body := Json.obj [(jstr "error", Json.str msgMissingFields)],
      fetched := none }
  else
    let cleanUrl := ajaxCleanBase (req.body.baseUrl.getD [])
    let apiCall := ajaxApiCall req.body.call
    let fullUrl := ajaxFullUrl cleanUrl apiCall req.body.queryParams
    match net with
    | .failure msg _ =>
      { status := 500,
        body := Json.obj
          [(jstr "success", Json.bool false),
           (jstr "error", Json.str msgProxyFailed),
           (jstr "message", Json.str msg)],
        fetched := some fullUrl }
    | .success r =>
      let t := r.body
      if t.isEmpty || (jsTrim t).isEmpty || jsTrim t == jstr "0" then
        { status := 200,
          body := Json.obj
            [(jstr "success", Json.bool false),
             (jstr "error", Json.str msgEmptyResponse),
             (jstr "hint", Json.str msgEmptyHint),
             (jstr "rawResponse", Json.str t)],
          fetched := some fullUrl }
      else if (jstr "<!").isPrefixOf (jsTrim t) ||
          (jstr "<html").isPrefixOf (jsToLower (jsTrim t)) then
        { status := 200,
          body := Json.obj
            [(jstr "success", Json.bool false),
             (jstr "error", Json.str msgHtmlError),
             (jstr "hint", Json.str msgHtmlHint),
             (jstr "rawResponse", Json.str (t.take 300))],
          fetched := some fullUrl }
      else
        match jsonParse t with
        | none =>
          { status := 200,
            body := Json.obj
              [(jstr "success", Json.bool false),
               (jstr "error", Json.str msgInvalidJson),
               (jstr "rawResponse", Json.str (t.take 500))],
            fetched := some fullUrl }
        | some d =>
          { status := 200,
            body := Json.obj
              [(jstr "success", Json.bool true), (jstr "data", d)],
            fetched := some fullUrl }

/-- `response.ok` of the fetch API: status in the range 200 to 299. -/
def responseOk (st : Nat) : Bool := decide (200 ≤ st) && decide (st ≤ 299)

/-- `endpoint || 'settings'` of the REST variant. -/
def restEndpoint (e : Option Str) : Str :=
  match e with
  | none => jstr "settings"
  | some x => if x.isEmpty then jstr "settings" else x

/-- The REST-variant handler (first document in the source file). -/
def restHandler (req : Request) (net : FetchOutcome) : HandlerResult :=
  if req.method = jstr "OPTIONS" then
    { status := 200, body := Json.null, fetched := none }
  else if req.method ≠ jstr "POST" then
    { status := 405,
      body := Json.obj [(jstr "error", Json.str msgMethodNotAllowed)],
      fetched := none }
  else if jsFalsyStr req.body.baseUrl || jsFalsyStr req.body.apiKey then
    { status := 400,
      body := Json.obj [(jstr "error", Json.str msgMissingFields)],
      fetched := none }
  else
    match cleanBaseUrl (req.body.baseUrl.getD []) with
    | none =>
      { status := 400,
        body := Json.obj [(jstr "error", Json.str msgInvalidBase)],
        fetched := none }
    | some cleanUrl =>
      let fullUrl :=
        buildAmeliaUrl cleanUrl (restEndpoint req.body.endpoint) (req.body.apiKey.getD [])
      match net with
      | .failure msg code =>
        if strIncludes msg (jstr "fetch failed") || code == some (jstr "ENOTFOUND") then
          { status := 500,
            body := Json.obj
              [(jstr "error", Json.str msgCannotReach),
               (jstr "message", Json.str msgCannotReachDetail),
               (jstr "details", Json.str msg)],
            fetched := some fullUrl }
        else
          { status := 500,
            body := Json.obj
              [(jstr "error", Json.str msgProxyFailed),
               (jstr "message", Json.str msg)],
            fetched := some fullUrl }
      | .success r =>
        if ! responseOk r.status then
          { status := r.status,
            body := Json.obj
              [(jstr "error", Json.str msgRequestFailed),
               (jstr "status", Json.num (natLexeme r.status)),
               (jstr "message", Json.str r.body),
               (jstr "details", Json.str msgCheckApiKey)],
            fetched := some fullUrl }
        else
          match jsonParse r.body with
          | some d =>
            { status := 200,
              body := Json.obj
                [(jstr "success", Json.bool true), (jstr "data", d)],
              fetched := some fullUrl }
          | none =>
            { status := 500,
              body := Json.obj
                [(jstr "error", Json.str msgProxyFailed),
                 (jstr "message", Json.str msgJsonParseError)],
              fetched := some fullUrl }

end AmeliaProxy

namespace AmeliaProxy

/-! ## General helper lemmas -/

lemma isEmpty_false_of_ne {l : Str} (h : l ≠ []) : l.isEmpty = false := by
  cases l with
  | nil => exact absurd rfl h
  | cons a t => rfl

lemma jsFalsyStr_some_false {l : Str} (h : l ≠ []) : jsFalsyStr (some l) = false := by
  simp [jsFalsyStr, isEmpty_false_of_ne h]

lemma dropWhile_eq_self_of_all {p : Char → Bool} {l : Str}
    (h : ∀ c ∈ l, p c = false) : l.dropWhile p = l := by
  cases l with
  | nil => rfl
  | cons a t => simp [List.dropWhile_cons, h a (by simp)]

lemma dropTrailing_eq_self_of_all {p : Char → Bool} {l : Str}
    (h : ∀ c ∈ l, p c = false) : dropTrailing p l = l := by
  unfold dropTrailing
  rw [dropWhile_eq_self_of_all (fun c hc => h c (List.mem_reverse.mp hc)),
    List.reverse_reverse]

lemma jsTrim_eq_self_of_all {l : Str} (h : ∀ c ∈ l, isJsWs c = false) :
    jsTrim l = l := by
  unfold jsTrim
  rw [dropWhile_eq_self_of_all h, dropTrailing_eq_self_of_all h]

lemma prefixOf_exists_append :
    ∀ {l₁ l₂ : Str}, l₁.isPrefixOf l₂ = true → ∃ t, l₁ ++ t = l₂ := by
  intro l₁
  induction l₁ with
  | nil => intro l₂ _; exact ⟨l₂, rfl⟩
  | cons a q ih =>
    intro l₂ h
    cases l₂ with
    | nil => exact absurd h (by simp [List.isPrefixOf])
    | cons b s =>
      rw [show ((a :: q).isPrefixOf (b :: s)) = ((a == b) && q.isPrefixOf s) from rfl,
        Bool.and_eq_true] at h
      obtain ⟨hab, hqs⟩ := h
      obtain ⟨u, hu⟩ := ih hqs
      exact ⟨u, by rw [eq_of_beq hab, List.cons_append, hu]⟩

/-- Splitting lemma for `strIncludes`. -/
lemma strIncludes_split {s sub : Str} (h : strIncludes s sub = true) :
    ∃ pre post, s = pre ++ sub ++ post := by
  induction s with
  | nil =>
    rw [strIncludes] at h
    by_cases hp : sub.isPrefixOf [] = true
    · obtain ⟨t, ht⟩ := prefixOf_exists_append hp
      exact ⟨[], t, by simp [← ht]⟩
    · simp [hp] at h
  | cons a t ih =>
    rw [strIncludes] at h
    by_cases hp : sub.isPrefixOf (a :: t) = true
    · obtain ⟨u, hu⟩ := prefixOf_exists_append hp
      exact ⟨[], u, by simp [← hu]⟩
    · simp only [hp] at h
      obtain ⟨pre, post, hsplit⟩ := ih (by simpa using h)
      exact ⟨a :: pre, post, by simp [hsplit]⟩

lemma isPrefixOf_append_self (p t : Str) : p.isPrefixOf (p ++ t) = true := by
  induction p with
  | nil => cases t <;> rfl
  | cons a q ih =>
    rw [List.cons_append,
      show ((a :: q).isPrefixOf (a :: (q ++ t))) = ((a == a) && q.isPrefixOf (q ++ t)) from rfl,
      ih]
    simp

/-- Appending with `foldl`, as done by the query-parameter loop, equals
appending the flattened encodings. -/
lemma foldl_append_flatten {α : Type} (g : α → Str) :
    ∀ (ps : List α) (u : Str),
      ps.foldl (fun acc kv => acc ++ g kv) u = u ++ (ps.map g).flatten := by
  intro ps
  induction ps with
  | nil => intro u; simp
  | cons hd tl ih => intro u; simp [ih, List.append_assoc]

/-! ## C10: REST URL builder interpolates endpoint and apiKey verbatim -/

/-- C10: in `buildAmeliaUrl` the endpoint (after removal of one leading
slash) and the apiKey are interpolated verbatim, with no URL-encoding,
and the result ends with the literal text `?ameliaApiKey=` followed by
the apiKey unchanged. -/
theorem buildAmeliaUrl_verbatim (b e k : Str) :
    buildAmeliaUrl b e k =
      b ++ jstr "/wp-json/amelia/v1/" ++ stripOneLeadingSlash e ++
        jstr "?ameliaApiKey=" ++ k ∧
    (jstr "?ameliaApiKey=" ++ k) <:+ buildAmeliaUrl b e k := by
  refine ⟨rfl, ⟨b ++ jstr "/wp-json/amelia/v1/" ++ stripOneLeadingSlash e, ?_⟩⟩
  simp [buildAmeliaUrl, List.append_assoc]


/-! ## C5: ajax call-path construction -/

lemma apiV1_isPrefixOf_insert (x : Str) :
    (jstr "/api/v1").isPrefixOf (jstr "/api/v1/" ++ stripOneLeadingSlash x) = true := by
  rfl

lemma apiV1_isPrefixOf_ifInsert (x : Str) :
    (jstr "/api/v1").isPrefixOf
      (if (jstr "/api/v1").isPrefixOf x = true then x
       else jstr "/api/v1/" ++ stripOneLeadingSlash x) = true := by
  by_cases hp : (jstr "/api/v1").isPrefixOf x = true
  · rw [if_pos hp]; exact hp
  · rw [if_neg hp]; exact apiV1_isPrefixOf_insert x

/-- C5: the call path is the caller-supplied call identifier (or the
fixed entity-listing call `/api/v1/entities` when absent or empty), it
always begins with `/api/v1`, and when the prefix is inserted one
leading slash of the supplied call is stripped. -/
theorem ajaxApiCall_spec (c : Option Str) :
    (jstr "/api/v1").isPrefixOf (ajaxApiCall c) = true ∧
    ajaxApiCall none = jstr "/api/v1/entities" ∧
    ajaxApiCall (some []) = jstr "/api/v1/entities" ∧
    (∀ s : Str, s ≠ [] → (jstr "/api/v1").isPrefixOf s = true →
      ajaxApiCall (some s) = s) ∧
    (∀ s : Str, s ≠ [] → (jstr "/api/v1").isPrefixOf s = false →
      ajaxApiCall (some s) = jstr "/api/v1/" ++ stripOneLeadingSlash s) := by
  refine ⟨?_, rfl, rfl, ?_, ?_⟩
  · unfold ajaxApiCall
    exact apiV1_isPrefixOf_ifInsert _
  · intro s hs hp
    simp [ajaxApiCall, isEmpty_false_of_ne hs, hp]
  · intro s hs hp
    simp [ajaxApiCall, isEmpty_false_of_ne hs, hp]

/-! ## C8: missing baseUrl or apiKey yields 400 with no outbound call -/

lemma post_ne_options : ¬ (jstr "POST" = jstr "OPTIONS") := by decide

/-- C8: for every POST request whose `baseUrl` or `apiKey` is absent or
empty, both handler variants answer 400 with the fixed error naming the
required fields, and no outbound fetch is attempted. -/
theorem missing_fields_400 (b a c e mth : Option Str) (bd : Option Json)
    (qp : Option (List (Str × Str))) (net : FetchOutcome)
    (h : (jsFalsyStr b || jsFalsyStr a) = true) :
    ajaxHandler
        { method := jstr "POST",
          body := { baseUrl := b, apiKey := a, call := c, endpoint := e,
                    method := mth, body := bd, queryParams := qp } } net =
      { status := 400,
        body := Json.obj [(jstr "error", Json.str msgMissingFields)],
        fetched := none } ∧
    restHandler
        { method := jstr "POST",
          body := { baseUrl := b, apiKey := a, call := c, endpoint := e,
                    method := mth, body := bd, queryParams := qp } } net =
      { status := 400,
        body := Json.obj [(jstr "error", Json.str msgMissingFields)],
        fetched := none } := by
  constructor
  · simp [ajaxHandler, post_ne_options, h]
  · simp [restHandler, post_ne_options, h]

/-! ## C9: the ajax handler's outer status space -/

/-- C9: in the ajax variant, whenever the outbound fetch completes
without throwing (a `success` outcome) and a fetch was attempted at all,
the outer status is exactly 200 regardless of the upstream status; and
every response of this handler has status 200, 400, 405 or 500. -/
theorem ajax_status_space :
    (∀ (req : Request) (r : FetchResponse),
      (ajaxHandler req (.success r)).fetched.isSome = true →
      (ajaxHandler req (.success r)).status = 200) ∧
    (∀ (req : Request) (net : FetchOutcome),
      (ajaxHandler req net).status = 200 ∨ (ajaxHandler req net).status = 400 ∨
      (ajaxHandler req net).status = 405 ∨ (ajaxHandler req net).status = 500) := by
  constructor
  · intro req r h
    by_cases h1 : req.method = jstr "OPTIONS"
    · simp [ajaxHandler, h1] at h
    · by_cases h2 : req.method = jstr "POST"
      · by_cases h3 : (jsFalsyStr req.body.baseUrl || jsFalsyStr req.body.apiKey) = true
        · simp [ajaxHandler, h1, h2, h3, post_ne_options] at h
        · simp only [Bool.not_eq_true] at h3
          simp [ajaxHandler, h1, h2, h3, post_ne_options]
          split_ifs <;> try rfl
          rcases hj : jsonParse r.body with _ | d <;> simp [hj]
      · simp [ajaxHandler, h1, h2] at h
  · intro req net
    by_cases h1 : req.method = jstr "OPTIONS"
    · simp [ajaxHandler, h1]
    · by_cases h2 : req.method = jstr "POST"
      · by_cases h3 : (jsFalsyStr req.body.baseUrl || jsFalsyStr req.body.apiKey) = true
        · simp [ajaxHandler, h1, h2, h3, post_ne_options]
        · simp only [Bool.not_eq_true] at h3
          cases net with
          | failure msg code => simp [ajaxHandler, h1, h2, h3, post_ne_options]
          | success r =>
            simp [ajaxHandler, h1, h2, h3, post_ne_options]
            split_ifs <;> try simp
            rcases hj : jsonParse r.body with _ | d <;> simp [hj]
      · simp [ajaxHandler, h1, h2]

/-! ## Helper lemmas on trimming and lowercasing -/

lemma jsTrim_append_nonws (p t : Str) (hne : p ≠ [])
    (hp : ∀ c ∈ p, isJsWs c = false) : ∃ q, jsTrim (p ++ t) = p ++ q := by
  unfold jsTrim
  have hfront : (p ++ t).dropWhile isJsWs = p ++ t := by
    cases p with
    | nil => exact absurd rfl hne
    | cons a p2 =>
      simp [List.dropWhile_cons, hp a (by simp)]
  rw [hfront]
  unfold dropTrailing
  rw [List.reverse_append, List.dropWhile_append]
  by_cases hcase : (t.reverse.dropWhile isJsWs).isEmpty = true
  · rw [if_pos hcase]
    have hstays : p.reverse.dropWhile isJsWs = p.reverse := by
      apply dropWhile_eq_self_of_all
      intro c hc
      exact hp c (List.mem_reverse.mp hc)
    rw [hstays, List.reverse_reverse]
    exact ⟨[], by simp⟩
  · rw [if_neg hcase]
    rw [List.reverse_append, List.reverse_reverse]
    exact ⟨(t.reverse.dropWhile isJsWs).reverse, rfl⟩

lemma isPrefixOf_jsTrim_of_nonws (p s : Str) (hne : p ≠ [])
    (hp : ∀ c ∈ p, isJsWs c = false) (h : p.isPrefixOf s = true) :
    p.isPrefixOf (jsTrim s) = true := by
  obtain ⟨t, ht⟩ := prefixOf_exists_append h
  obtain ⟨q, hq⟩ := jsTrim_append_nonws p t hne hp
  rw [← ht, hq]
  exact isPrefixOf_append_self p q

lemma isJsWs_jsCharToLower (c : Char) : isJsWs (jsCharToLower c) = isJsWs c := by
  unfold jsCharToLower
  by_cases h : 65 ≤ c.toNat ∧ c.toNat ≤ 90
  · rw [if_pos h]
    have h1 : (Char.ofNat (c.toNat + 32)).toNat = c.toNat + 32 := by
      unfold Char.ofNat
      rw [dif_pos]
      · rfl
      · exact Or.inl (by omega)
    have hl : isJsWs (Char.ofNat (c.toNat + 32)) = false := by
      simp only [isJsWs, h1]
      simp only [Bool.or_eq_false_iff, Bool.and_eq_false_iff, decide_eq_false_iff_not]
      omega
    have hr : isJsWs c = false := by
      simp only [isJsWs]
      simp only [Bool.or_eq_false_iff, Bool.and_eq_false_iff, decide_eq_false_iff_not]
      omega
    rw [hl, hr]
  · rw [if_neg h]

lemma jsToLower_jsTrim (s : Str) : jsToLower (jsTrim s) = jsTrim (jsToLower s) := by
  have hcomp : (isJsWs ∘ jsCharToLower) = isJsWs := by
    funext c
    exact isJsWs_jsCharToLower c
  unfold jsToLower jsTrim dropTrailing
  rw [List.dropWhile_map, hcomp, ← List.map_reverse, List.dropWhile_map, hcomp,
    ← List.map_reverse]

/-! ## C6: empty or "0" upstream body -/

/-- C6: for every POST request whose upstream body is the empty string
or trims to the literal `0`, the ajax handler returns outer status 200
with `success:false`, the fixed empty-response error, the diagnostic
hint, and the raw text under `rawResponse`. -/
theorem ajax_empty_or_zero (bu ak : Str) (c e mth : Option Str) (bd : Option Json)
    (qp : Option (List (Str × Str))) (st : Nat) (t : Str)
    (hbu : bu ≠ []) (hak : ak ≠ [])
    (h : t = [] ∨ jsTrim t = jstr "0") :
    ajaxHandler
        { method := jstr "POST",
          body := { baseUrl := some bu, apiKey := some ak, call := c, endpoint := e,
                    method := mth, body := bd, queryParams := qp } }
        (.success { status := st, body := t }) =
      { status := 200,
        body := Json.obj
          [(jstr "success", Json.bool false),
           (jstr "error", Json.str msgEmptyResponse),
           (jstr "hint", Json.str msgEmptyHint),
           (jstr "rawResponse", Json.str t)],
        fetched := some (ajaxFullUrl (ajaxCleanBase bu) (ajaxApiCall c) qp) } := by
  have hcond : (t.isEmpty || (jsTrim t).isEmpty || (jsTrim t == jstr "0")) = true := by
    rcases h with h | h
    · subst h; rfl
    · simp [h]
  simp [ajaxHandler, post_ne_options, jsFalsyStr_some_false hbu,
    jsFalsyStr_some_false hak, hcond]

/-! ## C7: HTML upstream body -/

/-- C7: for every POST request whose upstream body begins with `<!` or,
case-insensitively, with `<html`, the ajax handler returns outer status
200 with `success:false`, the HTML-instead-of-JSON error, the diagnostic
hint, and at most the first 300 characters of the body in
`rawResponse`. -/
theorem ajax_html_detection (bu ak : Str) (c e mth : Option Str) (bd : Option Json)
    (qp : Option (List (Str × Str))) (st : Nat) (t : Str)
    (hbu : bu ≠ []) (hak : ak ≠ [])
    (h : (jstr "<!").isPrefixOf t = true ∨
      (jstr "<html").isPrefixOf (jsToLower t) = true) :
    ajaxHandler
        { method := jstr "POST",
          body := { baseUrl := some bu, apiKey := some ak, call := c, endpoint := e,
                    method := mth, body := bd, queryParams := qp } }
        (.success { status := st, body := t }) =
      { status := 200,
        body := Json.obj
          [(jstr "success", Json.bool false),
           (jstr "error", Json.str msgHtmlError),
           (jstr "hint", Json.str msgHtmlHint),
           (jstr "rawResponse", Json.str (t.take 300))],
        fetched := some (ajaxFullUrl (ajaxCleanBase bu) (ajaxApiCall c) qp) } := by
  have hhtml : ((jstr "<!").isPrefixOf (jsTrim t) ||
      (jstr "<html").isPrefixOf (jsToLower (jsTrim t))) = true := by
    rcases h with h | h
    · rw [isPrefixOf_jsTrim_of_nonws _ _ (by decide) (by decide) h]
      rfl
    · rw [jsToLower_jsTrim,
        isPrefixOf_jsTrim_of_nonws _ _ (by decide) (by decide) h]
      simp
  have hcond : (t.isEmpty || (jsTrim t).isEmpty || (jsTrim t == jstr "0")) = false := by
    rcases h with h | h
    · obtain ⟨u, hu⟩ := prefixOf_exists_append
        (isPrefixOf_jsTrim_of_nonws _ _ (by decide) (by decide) h)
      obtain ⟨v, hv⟩ := prefixOf_exists_append h
      have he2 : jsTrim t = '<' :: '!' :: u := by rw [← hu]; rfl
      have ht2 : t = '<' :: '!' :: v := by rw [← hv]; rfl
      rw [he2, ht2]
      rfl
    · have hlow : (jstr "<html").isPrefixOf (jsToLower (jsTrim t)) = true := by
        rw [jsToLower_jsTrim]
        exact isPrefixOf_jsTrim_of_nonws _ _ (by decide) (by decide) h
      obtain ⟨u, hu⟩ := prefixOf_exists_append hlow
      have ht0 : t ≠ [] := by
        intro hnil
        rw [hnil] at h
        exact absurd h (by decide)
      cases hJT : jsTrim t with
      | nil =>
        exfalso
        rw [hJT] at hu
        have hx : jstr "<html" ++ u = ([] : Str) := hu
        rcases List.append_eq_nil.mp hx with ⟨h1, _⟩
        exact absurd h1 (by decide)
      | cons c0 rest =>
        rw [hJT] at hu
        have hc0 : jsCharToLower c0 = '<' := by
          have hcons : '<' :: (jstr "html" ++ u) = jsCharToLower c0 :: jsToLower rest := hu
          injection hcons with h1 h2
          exact h1.symm
        have hc0ne : (c0 == '0') = false := by
          cases hcc : c0 == '0'
          · rfl
          · exfalso
            have hceq : c0 = '0' := by
              have := hcc
              exact eq_of_beq this
            rw [hceq] at hc0
            exact absurd hc0 (by decide)
        have hbeq : ((c0 :: rest : Str) == jstr "0") = ((c0 == '0') && (rest == [])) := rfl
        rw [isEmpty_false_of_ne ht0, hbeq, hc0ne]
        rfl
  simp [ajaxHandler, post_ne_options, jsFalsyStr_some_false hbu,
    jsFalsyStr_some_false hak, hcond, hhtml]

/-! ## C1: upstream non-2xx status with a JSON body -/

/-- C1 counterexample: the upstream answers status 404 with the valid
JSON body `[1]`, yet the ajax handler returns outer status 200 with
`success:true` and the parsed body under `data`: the upstream status is
not propagated and no `error` field is produced. -/
theorem ajax_no_status_propagation_counterexample :
    jsonParse (jstr "[1]") = some (Json.arr [Json.num (jstr "1")]) ∧
    (ajaxHandler
        { method := jstr "POST",
          body := { baseUrl := some (jstr "a.com"), apiKey := some (jstr "k"),
                    call := none, endpoint := none, method := none, body := none,
                    queryParams := none } }
        (.success { status := 404, body := jstr "[1]" })).status = 200 ∧
    (ajaxHandler
        { method := jstr "POST",
          body := { baseUrl := some (jstr "a.com"), apiKey := some (jstr "k"),
                    call := none, endpoint := none, method := none, body := none,
                    queryParams := none } }
        (.success { status := 404, body := jstr "[1]" })).status ≠ 404 ∧
    (ajaxHandler
        { method := jstr "POST",
          body := { baseUrl := some (jstr "a.com"), apiKey := some (jstr "k"),
                    call := none, endpoint := none, method := none, body := none,
                    queryParams := none } }
        (.success { status := 404, body := jstr "[1]" })).body =
      Json.obj
        [(jstr "success", Json.bool true),
         (jstr "data", Json.arr [Json.num (jstr "1")])] := by
  refine ⟨rfl, by decide, by decide, rfl⟩

/-- C1 (amended): a non-2xx upstream status with a JSON body is
propagated only by the REST variant, which returns the upstream status
with the fixed request-failed error, the status code, and the raw body
text under `message` (the body is not parsed into `data`); the ajax
variant ignores the upstream status entirely and returns outer status
200 with `success:true` and the parsed body under `data` (when the body
is not the empty/`0` or HTML special case). -/
theorem upstream_error_propagation_amended :
    (∀ (bu ak : Str) (c e mth : Option Str) (bd : Option Json)
      (qp : Option (List (Str × Str))) (st : Nat) (t : Str) (j : Json),
      bu ≠ [] → ak ≠ [] →
      (t.isEmpty || (jsTrim t).isEmpty || (jsTrim t == jstr "0")) = false →
      ((jstr "<!").isPrefixOf (jsTrim t) ||
        (jstr "<html").isPrefixOf (jsToLower (jsTrim t))) = false →
      jsonParse t = some j →
      ajaxHandler
          { method := jstr "POST",
            body := { baseUrl := some bu, apiKey := some ak, call := c, endpoint := e,
                      method := mth, body := bd, queryParams := qp } }
          (.success { status := st, body := t }) =
        { status := 200,
          body := Json.obj [(jstr "success", Json.bool true), (jstr "data", j)],
          fetched := some (ajaxFullUrl (ajaxCleanBase bu) (ajaxApiCall c) qp) }) ∧
    (∀ (bu ak cu : Str) (c e mth : Option Str) (bd : Option Json)
      (qp : Option (List (Str × Str))) (st : Nat) (t : Str),
      bu ≠ [] → ak ≠ [] → cleanBaseUrl bu = some cu →
      responseOk st = false →
      restHandler
          { method := jstr "POST",
            body := { baseUrl := some bu, apiKey := some ak, call := c, endpoint := e,
                      method := mth, body := bd, queryParams := qp } }
          (.success { status := st, body := t }) =
        { status := st,
          body := Json.obj
            [(jstr "error", Json.str msgRequestFailed),
             (jstr "status", Json.num (natLexeme st)),
             (jstr "message", Json.str t),
             (jstr "details", Json.str msgCheckApiKey)],
          fetched := some (buildAmeliaUrl cu (restEndpoint e) ak) }) := by
  constructor
  · intro bu ak c e mth bd qp st t j hbu hak hempty hhtml hj
    simp [ajaxHandler, post_ne_options, jsFalsyStr_some_false hbu,
      jsFalsyStr_some_false hak, hempty, hhtml, hj]
  · intro bu ak cu c e mth bd qp st t hbu hak hcln hok
    simp [restHandler, post_ne_options, jsFalsyStr_some_false hbu,
      jsFalsyStr_some_false hak, hcln, hok]

/-- C1 amended witness: both parts instantiated at the upstream response
status 404 with body `[1]`. -/
theorem upstream_error_propagation_amended_witness :
    ajaxHandler
        { method := jstr "POST",
          body := { baseUrl := some (jstr "a.com"), apiKey := some (jstr "k"),
                    call := none, endpoint := none, method := none, body := none,
                    queryParams := none } }
        (.success { status := 404, body := jstr "[1]" }) =
      { status := 200,
        body := Json.obj
          [(jstr "success", Json.bool true),
           (jstr "data", Json.arr [Json.num (jstr "1")])],
        fetched := some (ajaxFullUrl (ajaxCleanBase (jstr "a.com")) (ajaxApiCall none) none) } ∧
    restHandler
        { method := jstr "POST",
          body := { baseUrl := some (jstr "a.com"), apiKey := some (jstr "k"),
                    call := none, endpoint := none, method := none, body := none,
                    queryParams := none } }
        (.success { status := 404, body := jstr "[1]" }) =
      { status := 404,
        body := Json.obj
          [(jstr "error", Json.str msgRequestFailed),
           (jstr "status", Json.num (natLexeme 404)),
           (jstr "message", Json.str (jstr "[1]")),
           (jstr "details", Json.str msgCheckApiKey)],
        fetched := some (buildAmeliaUrl (jstr "https://a.com") (restEndpoint none) (jstr "k")) } :=
  ⟨upstream_error_propagation_amended.1 (jstr "a.com") (jstr "k") none none none none
      none 404 (jstr "[1]") (Json.arr [Json.num (jstr "1")])
      (by decide) (by decide) (by decide) (by decide) rfl,
    upstream_error_propagation_amended.2 (jstr "a.com") (jstr "k") (jstr "https://a.com")
      none none none none none 404 (jstr "[1]")
      (by decide) (by decide) (by decide) (by decide)⟩

/-! ## C2: ajax upstream URL assembly -/

/-- The query-parameter suffix appended by the ajax variant's loop. -/
def encodedParamsOpt : Option (List (Str × Str)) → Str
  | none => []
  | some ps =>
    (ps.map (fun kv =>
      '&' :: (encodeURIComponent kv.1 ++ '=' :: encodeURIComponent kv.2))).flatten

lemma foldl_params_flatten (ps : List (Str × Str)) :
    ∀ u : Str,
      ps.foldl
        (fun acc kv =>
          acc ++ '&' :: (encodeURIComponent kv.1 ++ '=' :: encodeURIComponent kv.2)) u =
      u ++ (ps.map (fun kv =>
        '&' :: (encodeURIComponent kv.1 ++ '=' :: encodeURIComponent kv.2))).flatten := by
  induction ps with
  | nil => intro u; simp
  | cons hd tl ih => intro u; simp [ih, List.append_assoc]

lemma ajaxFullUrl_eq (cu ac : Str) (qp : Option (List (Str × Str))) :
    ajaxFullUrl cu ac qp =
      cu ++ jstr "/wp-admin/admin-ajax.php?action=wpamelia_api&call=" ++ ac ++
        encodedParamsOpt qp := by
  cases qp with
  | none => simp [ajaxFullUrl, appendQueryParams, encodedParamsOpt]
  | some ps =>
    simp [ajaxFullUrl, appendQueryParams, encodedParamsOpt, foldl_params_flatten,
      List.append_assoc]

/-- C2 counterexample: with the default call path `/api/v1/entities` the
fetched upstream URL contains the call path verbatim; URL-encoding the
call path, as the claim states, would yield a different URL. -/
theorem ajax_url_encoding_counterexample :
    (ajaxHandler
        { method := jstr "POST",
          body := { baseUrl := some (jstr "a.com"), apiKey := some (jstr "k"),
                    call := none, endpoint := none, method := none, body := none,
                    queryParams := none } }
        (.success { status := 200, body := jstr "[1]" })).fetched =
      some (jstr "https://a.com/wp-admin/admin-ajax.php?action=wpamelia_api&call=/api/v1/entities") ∧
    encodeURIComponent (jstr "/api/v1/entities") ≠ jstr "/api/v1/entities" ∧
    jstr "https://a.com/wp-admin/admin-ajax.php?action=wpamelia_api&call=" ++
        encodeURIComponent (jstr "/api/v1/entities") ≠
      jstr "https://a.com/wp-admin/admin-ajax.php?action=wpamelia_api&call=/api/v1/entities" := by
  refine ⟨by decide, by decide, by decide⟩

/-- C2 (amended): for every valid POST request on the ajax transport and
any fetch outcome, the upstream URL equals the normalized base followed
by the fixed ajax path with `action=wpamelia_api` and the call path
interpolated verbatim (not URL-encoded), followed by each caller-supplied
query parameter as `&key=value` with key and value URL-encoded
independently. -/
theorem ajax_url_assembly_amended (bu ak : Str) (c e mth : Option Str)
    (bd : Option Json) (qp : Option (List (Str × Str))) (net : FetchOutcome)
    (hbu : bu ≠ []) (hak : ak ≠ []) :
    (ajaxHandler
        { method := jstr "POST",
          body := { baseUrl := some bu, apiKey := some ak, call := c, endpoint := e,
                    method := mth, body := bd, queryParams := qp } } net).fetched =
      some (ajaxCleanBase bu ++
        jstr "/wp-admin/admin-ajax.php?action=wpamelia_api&call=" ++ ajaxApiCall c ++
        encodedParamsOpt qp) := by
  cases net with
  | failure msg code =>
    simp [ajaxHandler, post_ne_options, jsFalsyStr_some_false hbu,
      jsFalsyStr_some_false hak, ajaxFullUrl_eq]
  | success r =>
    simp [ajaxHandler, post_ne_options, jsFalsyStr_some_false hbu,
      jsFalsyStr_some_false hak]
    split_ifs <;>
      rcases hj : jsonParse r.body with _ | d <;> simp [hj, ajaxFullUrl_eq]

/-- C2 amended witness: instantiated at a request with one query
parameter, whose key and value are URL-encoded in the final URL. -/
theorem ajax_url_assembly_amended_witness :
    (ajaxHandler
        { method := jstr "POST",
          body := { baseUrl := some (jstr "a.com"), apiKey := some (jstr "k"),
                    call := none, endpoint := none, method := none, body := none,
                    queryParams := some [(jstr "page size", jstr "10/x")] } }
        (.success { status := 200, body := jstr "[1]" })).fetched =
      some (ajaxCleanBase (jstr "a.com") ++
        jstr "/wp-admin/admin-ajax.php?action=wpamelia_api&call=" ++ ajaxApiCall none ++
        encodedParamsOpt (some [(jstr "page size", jstr "10/x")])) :=
  ajax_url_assembly_amended (jstr "a.com") (jstr "k") none none none none
    (some [(jstr "page size", jstr "10/x")])
    (.success { status := 200, body := jstr "[1]" })
    (by decide) (by decide)

/-! ## C3: transport-level fetch failures -/

/-- C3 counterexample: a DNS-style transport failure (message
`fetch failed`, code `ENOTFOUND`) on the ajax variant yields the generic
proxy-failed error, not the cannot-reach-site diagnostic the claim
requires. -/
theorem ajax_no_unreachable_diagnostic_counterexample :
    (ajaxHandler
        { method := jstr "POST",
          body := { baseUrl := some (jstr "a.com"), apiKey := some (jstr "k"),
                    call := none, endpoint := none, method := none, body := none,
                    queryParams := none } }
        (.failure (jstr "fetch failed") (some (jstr "ENOTFOUND")))).status = 500 ∧
    (ajaxHandler
        { method := jstr "POST",
          body := { baseUrl := some (jstr "a.com"), apiKey := some (jstr "k"),
                    call := none, endpoint := none, method := none, body := none,
                    queryParams := none } }
        (.failure (jstr "fetch failed") (some (jstr "ENOTFOUND")))).body =
      Json.obj
        [(jstr "success", Json.bool false),
         (jstr "error", Json.str msgProxyFailed),
         (jstr "message", Json.str (jstr "fetch failed"))] ∧
    msgProxyFailed ≠ msgCannotReach := by
  refine ⟨by decide, rfl, by decide⟩

/-- C3 (amended): every transport-level fetch failure yields status 500
with the underlying error text. The REST variant reports the fixed
cannot-reach-site error exactly when the error message contains
`fetch failed` or the code is `ENOTFOUND`, and the generic proxy-failed
error otherwise; the ajax variant always reports the generic
proxy-failed error. -/
theorem transport_failure_amended :
    (∀ (bu ak : Str) (c e mth : Option Str) (bd : Option Json)
      (qp : Option (List (Str × Str))) (msg : Str) (code : Option Str),
      bu ≠ [] → ak ≠ [] →
      ajaxHandler
          { method := jstr "POST",
            body := { baseUrl := some bu, apiKey := some ak, call := c, endpoint := e,
                      method := mth, body := bd, queryParams := qp } }
          (.failure msg code) =
        { status := 500,
          body := Json.obj
            [(jstr "success", Json.bool false),
             (jstr "error", Json.str msgProxyFailed),
             (jstr "message", Json.str msg)],
          fetched := some (ajaxFullUrl (ajaxCleanBase bu) (ajaxApiCall c) qp) }) ∧
    (∀ (bu ak cu : Str) (c e mth : Option Str) (bd : Option Json)
      (qp : Option (List (Str × Str))) (msg : Str) (code : Option Str),
      bu ≠ [] → ak ≠ [] → cleanBaseUrl bu = some cu →
      (strIncludes msg (jstr "fetch failed") || (code == some (jstr "ENOTFOUND"))) = true →
      restHandler
          { method := jstr "POST",
            body := { baseUrl := some bu, apiKey := some ak, call := c, endpoint := e,
                      method := mth, body := bd, queryParams := qp } }
          (.failure msg code) =
        { status := 500,
          body := Json.obj
            [(jstr "error", Json.str msgCannotReach),
             (jstr "message", Json.str msgCannotReachDetail),
             (jstr "details", Json.str msg)],
          fetched := some (buildAmeliaUrl cu (restEndpoint e) ak) }) ∧
    (∀ (bu ak cu : Str) (c e mth : Option Str) (bd : Option Json)
      (qp : Option (List (Str × Str))) (msg : Str) (code : Option Str),
      bu ≠ [] → ak ≠ [] → cleanBaseUrl bu = some cu →
      (strIncludes msg (jstr "fetch failed") || (code == some (jstr "ENOTFOUND"))) = false →
      restHandler
          { method := jstr "POST",
            body := { baseUrl := some bu, apiKey := some ak, call := c, endpoint := e,
                      method := mth, body := bd, queryParams := qp } }
          (.failure msg code) =
        { status := 500,
          body := Json.obj
            [(jstr "error", Json.str msgProxyFailed),
             (jstr "message", Json.str msg)],
          fetched := some (buildAmeliaUrl cu (restEndpoint e) ak) }) := by
  refine ⟨?_, ?_, ?_⟩
  · intro bu ak c e mth bd qp msg code hbu hak
    simp [ajaxHandler, post_ne_options, jsFalsyStr_some_false hbu,
      jsFalsyStr_some_false hak]
  · intro bu ak cu c e mth bd qp msg code hbu hak hcln hcond
    simp [restHandler, post_ne_options, jsFalsyStr_some_false hbu,
      jsFalsyStr_some_false hak, hcln, hcond]
  · intro bu ak cu c e mth bd qp msg code hbu hak hcln hcond
    simp [restHandler, post_ne_options, jsFalsyStr_some_false hbu,
      jsFalsyStr_some_false hak, hcln, hcond]

/-- C3 amended witness: the three parts instantiated at concrete
transport failures. -/
theorem transport_failure_amended_witness :
    ajaxHandler
        { method := jstr "POST",
          body := { baseUrl := some (jstr "a.com"), apiKey := some (jstr "k"),
                    call := none, endpoint := none, method := none, body := none,
                    queryParams := none } }
        (.failure (jstr "fetch failed") (some (jstr "ENOTFOUND"))) =
      { status := 500,
        body := Json.obj
          [(jstr "success", Json.bool false),
           (jstr "error", Json.str msgProxyFailed),
           (jstr "message", Json.str (jstr "fetch failed"))],
        fetched := some (ajaxFullUrl (ajaxCleanBase (jstr "a.com")) (ajaxApiCall none) none) } ∧
    restHandler
        { method := jstr "POST",
          body := { baseUrl := some (jstr "a.com"), apiKey := some (jstr "k"),
                    call := none, endpoint := none, method := none, body := none,
                    queryParams := none } }
        (.failure (jstr "fetch failed") (some (jstr "ENOTFOUND"))) =
      { status := 500,
        body := Json.obj
          [(jstr "error", Json.str msgCannotReach),
           (jstr "message", Json.str msgCannotReachDetail),
           (jstr "details", Json.str (jstr "fetch failed"))],
        fetched := some (buildAmeliaUrl (jstr "https://a.com") (restEndpoint none) (jstr "k")) } ∧
    restHandler
        { method := jstr "POST",
          body := { baseUrl := some (jstr "a.com"), apiKey := some (jstr "k"),
                    call := none, endpoint := none, method := none, body := none,
                    queryParams := none } }
        (.failure (jstr "socket hang up") none) =
      { status := 500,
        body := Json.obj
          [(jstr "error", Json.str msgProxyFailed),
           (jstr "message", Json.str (jstr "socket hang up"))],
        fetched := some (buildAmeliaUrl (jstr "https://a.com") (restEndpoint none) (jstr "k")) } :=
  ⟨transport_failure_amended.1 (jstr "a.com") (jstr "k") none none none none none
      (jstr "fetch failed") (some (jstr "ENOTFOUND")) (by decide) (by decide),
    transport_failure_amended.2.1 (jstr "a.com") (jstr "k") (jstr "https://a.com")
      none none none none none (jstr "fetch failed") (some (jstr "ENOTFOUND"))
      (by decide) (by decide) (by decide) (by decide),
    transport_failure_amended.2.2 (jstr "a.com") (jstr "k") (jstr "https://a.com")
      none none none none none (jstr "socket hang up") none
      (by decide) (by decide) (by decide) (by decide)⟩

/-! ## Witnesses for the confirmed theorems with hypotheses -/

/-- C5 witness: the inner hypotheses discharged at the concrete calls
`/api/v1/services` (kept verbatim) and `/services` (prefix inserted). -/
theorem ajaxApiCall_spec_witness :
    ajaxApiCall (some (jstr "/api/v1/services")) = jstr "/api/v1/services" ∧
    ajaxApiCall (some (jstr "/services")) =
      jstr "/api/v1/" ++ stripOneLeadingSlash (jstr "/services") :=
  ⟨(ajaxApiCall_spec (some (jstr "/api/v1/services"))).2.2.2.1 (jstr "/api/v1/services")
      (by decide) (by decide),
    (ajaxApiCall_spec (some (jstr "/services"))).2.2.2.2 (jstr "/services")
      (by decide) (by decide)⟩

/-- C6 witness: instantiated at the literal upstream body `0`. -/
theorem ajax_empty_or_zero_witness :
    ajaxHandler
        { method := jstr "POST",
          body := { baseUrl := some (jstr "a.com"), apiKey := some (jstr "k"),
                    call := none, endpoint := none, method := none, body := none,
                    queryParams := none } }
        (.success { status := 200, body := jstr "0" }) =
      { status := 200,
        body := Json.obj
          [(jstr "success", Json.bool false),
           (jstr "error", Json.str msgEmptyResponse),
           (jstr "hint", Json.str msgEmptyHint),
           (jstr "rawResponse", Json.str (jstr "0"))],
        fetched := some (ajaxFullUrl (ajaxCleanBase (jstr "a.com")) (ajaxApiCall none) none) } :=
  ajax_empty_or_zero (jstr "a.com") (jstr "k") none none none none none 200 (jstr "0")
    (by decide) (by decide) (Or.inr (by decide))

/-- C7 witness: instantiated at an upstream body starting with
`<!DOCTYPE html>`. -/
theorem ajax_html_detection_witness :
    ajaxHandler
        { method := jstr "POST",
          body := { baseUrl := some (jstr "a.com"), apiKey := some (jstr "k"),
                    call := none, endpoint := none, method := none, body := none,
                    queryParams := none } }
        (.success { status := 200, body := jstr "<!DOCTYPE html><p>x" }) =
      { status := 200,
        body := Json.obj
          [(jstr "success", Json.bool false),
           (jstr "error", Json.str msgHtmlError),
           (jstr "hint", Json.str msgHtmlHint),
           (jstr "rawResponse", Json.str ((jstr "<!DOCTYPE html><p>x").take 300))],
        fetched := some (ajaxFullUrl (ajaxCleanBase (jstr "a.com")) (ajaxApiCall none) none) } :=
  ajax_html_detection (jstr "a.com") (jstr "k") none none none none none 200
    (jstr "<!DOCTYPE html><p>x") (by decide) (by decide) (Or.inl (by decide))

/-- C8 witness: instantiated at a request missing `apiKey`. -/
theorem missing_fields_400_witness :
    ajaxHandler
        { method := jstr "POST",
          body := { baseUrl := some (jstr "a.com"), apiKey := none, call := none,
                    endpoint := none, method := none, body := none,
                    queryParams := none } }
        (.success { status := 200, body := jstr "[1]" }) =
      { status := 400,
        body := Json.obj [(jstr "error", Json.str msgMissingFields)],
        fetched := none } ∧
    restHandler
        { method := jstr "POST",
          body := { baseUrl := some (jstr "a.com"), apiKey := none, call := none,
                    endpoint := none, method := none, body := none,
                    queryParams := none } }
        (.success { status := 200, body := jstr "[1]" }) =
      { status := 400,
        body := Json.obj [(jstr "error", Json.str msgMissingFields)],
        fetched := none } :=
  missing_fields_400 (some (jstr "a.com")) none none none none none none
    (.success { status := 200, body := jstr "[1]" }) (by decide)

/-- C9 witness: the first part instantiated at a concrete request and a
concrete upstream 500 response (the fetch was attempted, and the outer
status is still 200). -/
theorem ajax_status_space_witness :
    (ajaxHandler
        { method := jstr "POST",
          body := { baseUrl := some (jstr "a.com"), apiKey := some (jstr "k"),
                    call := none, endpoint := none, method := none, body := none,
                    queryParams := none } }
        (.success { status := 500, body := jstr "[1]" })).status = 200 :=
  ajax_status_space.1
    { method := jstr "POST",
      body := { baseUrl := some (jstr "a.com"), apiKey := some (jstr "k"),
                call := none, endpoint := none, method := none, body := none,
                queryParams := none } }
    { status := 500, body := jstr "[1]" } (by decide)

/-! ## C4: idempotence of base-URL normalization -/

/-- A character that is neither JS whitespace nor a C0 control or
space. -/
def plainChar (c : Char) : Bool := ! isJsWs c && ! isC0OrSpace c

lemma plain_not_ws {c : Char} (h : plainChar c = true) : isJsWs c = false := by
  simp only [plainChar, Bool.and_eq_true, Bool.not_eq_true'] at h
  exact h.1

lemma plain_not_c0 {c : Char} (h : plainChar c = true) : isC0OrSpace c = false := by
  simp only [plainChar, Bool.and_eq_true, Bool.not_eq_true'] at h
  exact h.2

lemma plain_not_tabnl {c : Char} (h : plainChar c = true) :
    isTabOrNewline c = false := by
  have h2 := plain_not_c0 h
  unfold isC0OrSpace at h2
  unfold isTabOrNewline
  simp only [Bool.or_eq_false_iff, decide_eq_false_iff_not]
  simp only [decide_eq_false_iff_not] at h2
  omega

lemma mem_dropTrailing {p : Char → Bool} {l : Str} {c : Char}
    (h : c ∈ dropTrailing p l) : c ∈ l := by
  unfold dropTrailing at h
  rw [List.mem_reverse] at h
  exact List.mem_reverse.mp (List.dropWhile_subset p h)

lemma mem_stripTrailingSlashes {l : Str} {c : Char}
    (h : c ∈ stripTrailingSlashes l) : c ∈ l :=
  mem_dropTrailing h

lemma urlPreprocess_eq_self_of_plain {l : Str}
    (h : ∀ c ∈ l, plainChar c = true) : urlPreprocess l = l := by
  unfold urlPreprocess
  rw [dropWhile_eq_self_of_all (fun c hc => plain_not_c0 (h c hc)),
    dropTrailing_eq_self_of_all (fun c hc => plain_not_c0 (h c hc))]
  exact List.filter_eq_self.mpr (fun c hc => by
    rw [plain_not_tabnl (h c hc)]; rfl)

lemma https_not_prefix_http (r : Str) :
    (jstr "https://").isPrefixOf (jstr "http://" ++ r) = false := rfl

lemma drop_jstr_https (r : Str) : (jstr "https://" ++ r).drop 8 = r := by
  rw [show (8 : Nat) = (jstr "https://").length from rfl]
  exact List.drop_left _ _

lemma drop_jstr_http (r : Str) : (jstr "http://" ++ r).drop 7 = r := by
  rw [show (7 : Nat) = (jstr "http://").length from rfl]
  exact List.drop_left _ _

lemma dropHttpProto_https (r : Str) :
    dropHttpProto (jstr "https://" ++ r) = some r := by
  unfold dropHttpProto
  rw [if_pos (isPrefixOf_append_self _ r), drop_jstr_https]

lemma dropHttpProto_http (r : Str) :
    dropHttpProto (jstr "http://" ++ r) = some r := by
  unfold dropHttpProto
  rw [if_neg (by rw [https_not_prefix_http]; exact Bool.false_ne_true),
    if_pos (isPrefixOf_append_self _ r), drop_jstr_http]

lemma matchesHttpProto_https (r : Str) :
    matchesHttpProto (jstr "https://" ++ r) = true := by
  unfold matchesHttpProto
  rw [isPrefixOf_append_self]
  rfl

lemma matchesHttpProto_http (r : Str) :
    matchesHttpProto (jstr "http://" ++ r) = true := by
  unfold matchesHttpProto
  rw [https_not_prefix_http, isPrefixOf_append_self]
  rfl

lemma stripTrailingSlashes_idem (l : Str) :
    stripTrailingSlashes (stripTrailingSlashes l) = stripTrailingSlashes l := by
  unfold stripTrailingSlashes dropTrailing
  rw [List.reverse_reverse, List.dropWhile_idempotent]

lemma stripTrailingSlashes_append_of_fixed {a b : Str}
    (hb : stripTrailingSlashes b = b) (hbne : b ≠ []) :
    stripTrailingSlashes (a ++ b) = a ++ b := by
  unfold stripTrailingSlashes dropTrailing at hb ⊢
  have hrev : b.reverse.dropWhile (fun c => c == '/') = b.reverse := by
    have := congrArg List.reverse hb
    rwa [List.reverse_reverse] at this
  rw [List.reverse_append, List.dropWhile_append, hrev,
    if_neg (by rw [List.isEmpty_eq_false.mpr (by simpa using hbne)]; exact Bool.false_ne_true),
    List.reverse_append, List.reverse_reverse, List.reverse_reverse]

lemma stripTrailingSlashes_eq_self_of_all {b : Str}
    (hb : ∀ c ∈ b, (c == '/') = false) : stripTrailingSlashes b = b :=
  dropTrailing_eq_self_of_all hb

lemma takeWhile_eq_self_of_all {p : Char → Bool} :
    ∀ {l : Str}, (∀ c ∈ l, p c = true) → l.takeWhile p = l := by
  intro l h
  induction l with
  | nil => rfl
  | cons a t ih =>
    rw [List.takeWhile_cons, if_pos (h a (by simp)),
      ih (fun c hc => h c (by simp [hc]))]

lemma protoHostAt_https (r : Str) :
    protoHostAt (jstr "https://" ++ r) =
      (if (r.takeWhile (fun c => c != '/')).isEmpty then none
       else some (jstr "https://" ++ r.takeWhile (fun c => c != '/'))) := by
  unfold protoHostAt
  rw [if_pos (isPrefixOf_append_self _ r), drop_jstr_https]

lemma protoHostAt_http (r : Str) :
    protoHostAt (jstr "http://" ++ r) =
      (if (r.takeWhile (fun c => c != '/')).isEmpty then none
       else some (jstr "http://" ++ r.takeWhile (fun c => c != '/'))) := by
  unfold protoHostAt
  rw [if_neg (by rw [https_not_prefix_http]; exact Bool.false_ne_true),
    if_pos (isPrefixOf_append_self _ r), drop_jstr_http]

lemma firstProtoHost_of_protoHostAt {l : Str} {m : Str}
    (h : protoHostAt l = some m) : firstProtoHost l = some m := by
  cases l with
  | nil =>
    rw [show protoHostAt [] = none from rfl] at h
    cases h
  | cons a t =>
    unfold firstProtoHost
    rw [h]

/-- From a valid authority component, the leading character of the rest
exists and is not a slash. -/
lemma rest_head_of_validHostPort {rest : Str}
    (hv : validHostPort (afterLastAt
      (rest.takeWhile (fun c => ! isAuthDelim c))) = true) :
    ∃ c r2, rest = c :: r2 ∧ (! isAuthDelim c) = true ∧ (c != '/') = true := by
  have hauth : rest.takeWhile (fun c => ! isAuthDelim c) ≠ [] := by
    intro hnil
    rw [hnil] at hv
    exact absurd hv (by decide)
  cases hr : rest with
  | nil => rw [hr] at hauth; exact absurd rfl hauth
  | cons c r2 =>
    rw [hr] at hauth
    rw [List.takeWhile_cons] at hauth
    by_cases hc : (! isAuthDelim c) = true
    · have hia : isAuthDelim c = false := by
        cases hia2 : isAuthDelim c
        · rfl
        · rw [hia2] at hc; exact absurd hc (by decide)
      have hslash : (c == '/') = false := by
        unfold isAuthDelim at hia
        simp only [Bool.or_eq_false_iff] at hia
        exact hia.1.1
      refine ⟨c, r2, rfl, hc, ?_⟩
      simp [bne, hslash]
    · rw [if_neg hc] at hauth
      exact absurd rfl hauth

/-- Taking the authority of the host chunk equals taking the authority
of the full remainder: the chunk cut only stops earlier at `/`, which is
an authority delimiter as well. -/
lemma takeWhile_auth_chunk :
    ∀ rest : Str,
      (rest.takeWhile (fun c => c != '/')).takeWhile (fun c => ! isAuthDelim c) =
        rest.takeWhile (fun c => ! isAuthDelim c) := by
  intro rest
  induction rest with
  | nil => rfl
  | cons c r ih =>
    by_cases hs : (c != '/') = true
    · rw [List.takeWhile_cons, if_pos hs, List.takeWhile_cons, List.takeWhile_cons]
      by_cases ha : (! isAuthDelim c) = true
      · rw [if_pos ha, if_pos ha, ih]
      · rw [if_neg ha, if_neg ha]
    · have hc : (c == '/') = true := by
        cases hcc : c == '/'
        · rw [show (c != '/') = !(c == '/') from rfl, hcc] at hs
          exact absurd hs (by decide)
        · rfl
      have hceq : c = '/' := eq_of_beq hc
      rw [List.takeWhile_cons, if_neg hs, List.takeWhile_cons,
        if_neg (by rw [hceq]; decide)]
      rfl

lemma no_slash_pair_eq :
    ∀ (a : Str), ∀ {b u v : Str}, (∀ c ∈ a, c ≠ '/') → (∀ c ∈ b, c ≠ '/') →
      a ++ '/' :: u = b ++ '/' :: v → u = v := by
  intro a
  induction a with
  | nil =>
    intro b u v _ hb h
    cases b with
    | nil =>
      injection h with h1 h2
    | cons x b2 =>
      injection h with h1 _
      exact absurd h1.symm (hb x (by simp))
  | cons x a2 ih =>
    intro b u v ha hb h
    cases b with
    | nil =>
      injection h with h1 _
      exact absurd h1 (ha x (by simp))
    | cons y b2 =>
      injection h with _ h2
      exact ih (fun c hc => ha c (by simp [hc])) (fun c hc => hb c (by simp [hc])) h2

/-- A string of the shape `X//chunk` with no slashes in `X` or `chunk`
cannot contain the plugin path fragment `/wp-json/amelia`. -/
lemma strIncludes_wp_false (X chunk : Str) (hX : ∀ c ∈ X, c ≠ '/')
    (hchunk : ∀ c ∈ chunk, c ≠ '/') :
    strIncludes (X ++ '/' :: '/' :: chunk) wpJsonAmelia = false := by
  cases hS : strIncludes (X ++ '/' :: '/' :: chunk) wpJsonAmelia with
  | false => rfl
  | true =>
    exfalso
    obtain ⟨pre, post, heq⟩ := strIncludes_split hS
    have hcX : X.count '/' = 0 :=
      List.count_eq_zero.mpr (fun hmem => hX '/' hmem rfl)
    have hcC : chunk.count '/' = 0 :=
      List.count_eq_zero.mpr (fun hmem => hchunk '/' hmem rfl)
    have hcnt1 : (X ++ '/' :: '/' :: chunk).count '/' = 2 := by
      rw [List.count_append, hcX]
      have h2 : (('/' :: '/' :: chunk : Str)).count '/' = 2 := by
        rw [List.count_cons_self, List.count_cons_self, hcC]
      rw [h2]
    have hcnt2 : (pre ++ wpJsonAmelia ++ post).count '/' =
        pre.count '/' + 2 + post.count '/' := by
      rw [List.count_append, List.count_append,
        show wpJsonAmelia.count '/' = 2 from by decide]
    rw [heq, hcnt2] at hcnt1
    have hpre0 : pre.count '/' = 0 := by omega
    have hpre : ∀ c ∈ pre, c ≠ '/' := by
      intro c hc hceq
      subst hceq
      exact absurd hc (List.count_eq_zero.mp hpre0)
    have hshape : X ++ '/' :: ('/' :: chunk) = pre ++ '/' :: (jstr "wp-json/amelia" ++ post) := by
      rw [heq, show wpJsonAmelia = '/' :: jstr "wp-json/amelia" from by decide]
      simp
    have huv := no_slash_pair_eq X hX hpre hshape
    have hww : ('/' :: chunk : Str) = 'w' :: (jstr "p-json/amelia" ++ post) := huv
    injection hww with hh _
    exact absurd hh (by decide)

lemma ne_slash_of_bne {c : Char} (h : (c != '/') = true) : c ≠ '/' := by
  have hb : (c == '/') = false := by
    cases hcc : c == '/'
    · rfl
    · rw [show (c != '/') = !(c == '/') from rfl, hcc] at h
      exact absurd h (by decide)
  exact ne_of_beq_false hb

lemma beq_slash_false_of_bne {c : Char} (h : (c != '/') = true) :
    (c == '/') = false := by
  cases hcc : c == '/'
  · rfl
  · rw [show (c != '/') = !(c == '/') from rfl, hcc] at h
    exact absurd h (by decide)

/-- A string that is already trimmed, slash-stripped, scheme-prefixed,
URL-valid and free of the plugin path fragment is a fixed point of
`cleanBaseUrl`. -/
lemma cleanBaseUrl_fixed_point {s : Str}
    (hplain : ∀ c ∈ s, plainChar c = true)
    (hstrip : stripTrailingSlashes s = s)
    (hproto : matchesHttpProto s = true)
    (hvalid : isValidURL s = true)
    (hinc : strIncludes s wpJsonAmelia = false) :
    cleanBaseUrl s = some s := by
  simp only [cleanBaseUrl]
  rw [jsTrim_eq_self_of_all (fun c hc => plain_not_ws (hplain c hc)), hstrip,
    if_pos hproto, if_pos hvalid,
    if_neg (by rw [hinc]; exact Bool.false_ne_true)]
/-- Both outcomes of a successful first normalization pass are fixed
points: the full validated string (when the plugin fragment is absent)
and the extracted scheme-plus-host match (when it is present). -/
lemma idem_branches (proto X rest out : Str)
    (hPX : proto = X ++ '/' :: '/' :: ([] : Str))
    (hXnoslash : ∀ c ∈ X, c ≠ '/')
    (hdrop : ∀ r : Str, dropHttpProto (proto ++ r) = some r)
    (hmatchP : ∀ r : Str, matchesHttpProto (proto ++ r) = true)
    (hplain : ∀ c ∈ proto ++ rest, plainChar c = true)
    (hstrip : stripTrailingSlashes (proto ++ rest) = proto ++ rest)
    (hv : isValidURL (proto ++ rest) = true)
    (hcase : (strIncludes (proto ++ rest) wpJsonAmelia = false ∧ out = proto ++ rest) ∨
      out = proto ++ rest.takeWhile (fun c => c != '/')) :
    cleanBaseUrl out = some out := by
  have hvv : validHostPort (afterLastAt
      (rest.takeWhile (fun c => ! isAuthDelim c))) = true := by
    unfold isValidURL at hv
    rw [urlPreprocess_eq_self_of_plain hplain] at hv
    simp only [hdrop rest] at hv
    exact hv
  rcases hcase with ⟨hinc, rfl⟩ | rfl
  · exact cleanBaseUrl_fixed_point hplain hstrip (hmatchP rest) hv hinc
  · obtain ⟨c0, r2, hr, hc0auth, hc0slash⟩ := rest_head_of_validHostPort hvv
    have hchunkne : rest.takeWhile (fun c => c != '/') ≠ [] := by
      rw [hr, List.takeWhile_cons, if_pos hc0slash]
      simp
    have hchunk_noslash : ∀ c ∈ rest.takeWhile (fun c => c != '/'),
        (c != '/') = true := by
      intro c hc
      have h2 := List.mem_takeWhile_imp hc
      simpa using h2
    have hchunk_plain : ∀ c ∈ proto ++ rest.takeWhile (fun c => c != '/'),
        plainChar c = true := by
      intro c hc
      rcases List.mem_append.mp hc with hcp | hcc
      · exact hplain c (List.mem_append.mpr (Or.inl hcp))
      · exact hplain c (List.mem_append.mpr (Or.inr (List.takeWhile_subset _ hcc)))
    apply cleanBaseUrl_fixed_point hchunk_plain
    · exact stripTrailingSlashes_append_of_fixed
        (stripTrailingSlashes_eq_self_of_all
          (fun c hc => beq_slash_false_of_bne (hchunk_noslash c hc)))
        hchunkne
    · exact hmatchP _
    · unfold isValidURL
      rw [urlPreprocess_eq_self_of_plain hchunk_plain]
      simp only [hdrop (rest.takeWhile (fun c => c != '/'))]
      rw [takeWhile_auth_chunk rest]
      exact hvv
    · have hconv : proto ++ rest.takeWhile (fun c => c != '/') =
          X ++ '/' :: '/' :: rest.takeWhile (fun c => c != '/') := by
        rw [hPX]
        simp
      rw [hconv]
      exact strIncludes_wp_false X _ hXnoslash
        (fun c hc => ne_slash_of_bne (hchunk_noslash c hc))
/-- C4 counterexample: normalization is not idempotent on all inputs.
Stripping the trailing slash of `https://a.com?b /` exposes a trailing
space; the result still passes URL validation (the WHATWG parser strips
edge spaces itself), so it is returned as is, and renormalizing it trims
the space, yielding a different string. -/
theorem cleanBaseUrl_not_idempotent_counterexample :
    cleanBaseUrl (jstr "https://a.com?b /") = some (jstr "https://a.com?b ") ∧
    cleanBaseUrl (jstr "https://a.com?b ") = some (jstr "https://a.com?b") ∧
    jstr "https://a.com?b " ≠ jstr "https://a.com?b" := by
  refine ⟨by decide, by decide, by decide⟩

/-- C4 (amended): base URL normalization is idempotent on every input
free of whitespace and control characters: whenever such an input
normalizes to a non-null output, the output normalizes to itself. The
spec's examples hold: `example.com` normalizes to `https://example.com`
and `https://example.com/` normalizes to `https://example.com`. -/
theorem cleanBaseUrl_idempotent_amended :
    (∀ url out : Str, (∀ c ∈ url, plainChar c = true) →
      cleanBaseUrl url = some out → cleanBaseUrl out = some out) ∧
    cleanBaseUrl (jstr "example.com") = some (jstr "https://example.com") ∧
    cleanBaseUrl (jstr "https://example.com/") = some (jstr "https://example.com") := by
  refine ⟨?_, by decide, by decide⟩
  intro url out hplain h
  have htrim : jsTrim url = url :=
    jsTrim_eq_self_of_all (fun c hc => plain_not_ws (hplain c hc))
  simp only [cleanBaseUrl, htrim] at h
  have hs0plain : ∀ c ∈ stripTrailingSlashes url, plainChar c = true :=
    fun c hc => hplain c (mem_stripTrailingSlashes hc)
  by_cases hm : matchesHttpProto (stripTrailingSlashes url) = true
  · rw [if_pos hm] at h
    have hm2 := hm
    unfold matchesHttpProto at hm2
    simp only [Bool.or_eq_true] at hm2
    rcases hm2 with hpre | hpre
    · obtain ⟨rest, hrest⟩ := prefixOf_exists_append hpre
      rw [← hrest] at h
      have hplainPR : ∀ c ∈ jstr "https://" ++ rest, plainChar c = true := by
        rw [hrest]; exact hs0plain
      have hstripPR : stripTrailingSlashes (jstr "https://" ++ rest) =
          jstr "https://" ++ rest := by
        rw [hrest]; exact stripTrailingSlashes_idem url
      by_cases hv : isValidURL (jstr "https://" ++ rest) = true
      · rw [if_pos hv] at h
        have hvv : validHostPort (afterLastAt
            (rest.takeWhile (fun c => ! isAuthDelim c))) = true := by
          have hv2 := hv
          unfold isValidURL at hv2
          rw [urlPreprocess_eq_self_of_plain hplainPR] at hv2
          simp only [dropHttpProto_https rest] at hv2
          exact hv2
        obtain ⟨c0, r2, hr, hc0auth, hc0slash⟩ := rest_head_of_validHostPort hvv
        have hchunkne : rest.takeWhile (fun c => c != '/') ≠ [] := by
          rw [hr, List.takeWhile_cons, if_pos hc0slash]
          simp
        have hfp : firstProtoHost (jstr "https://" ++ rest) =
            some (jstr "https://" ++ rest.takeWhile (fun c => c != '/')) := by
          apply firstProtoHost_of_protoHostAt
          rw [protoHostAt_https,
            if_neg (by rw [isEmpty_false_of_ne hchunkne]; exact Bool.false_ne_true)]
        by_cases hinc : strIncludes (jstr "https://" ++ rest) wpJsonAmelia = true
        · rw [if_pos hinc] at h
          simp only [hfp] at h
          have hout := Option.some.inj h
          exact idem_branches (jstr "https://") (jstr "https:") rest out
            (by decide) (by decide) dropHttpProto_https matchesHttpProto_https
            hplainPR hstripPR hv (Or.inr hout.symm)
        · rw [if_neg hinc] at h
          have hout := Option.some.inj h
          exact idem_branches (jstr "https://") (jstr "https:") rest out
            (by decide) (by decide) dropHttpProto_https matchesHttpProto_https
            hplainPR hstripPR hv
            (Or.inl ⟨Bool.not_eq_true _ ▸ (by simpa using hinc), hout.symm⟩)
      · rw [if_neg hv] at h
        exact absurd h (by simp)
    · obtain ⟨rest, hrest⟩ := prefixOf_exists_append hpre
      rw [← hrest] at h
      have hplainPR : ∀ c ∈ jstr "http://" ++ rest, plainChar c = true := by
        rw [hrest]; exact hs0plain
      have hstripPR : stripTrailingSlashes (jstr "http://" ++ rest) =
          jstr "http://" ++ rest := by
        rw [hrest]; exact stripTrailingSlashes_idem url
      by_cases hv : isValidURL (jstr "http://" ++ rest) = true
      · rw [if_pos hv] at h
        have hvv : validHostPort (afterLastAt
            (rest.takeWhile (fun c => ! isAuthDelim c))) = true := by
          have hv2 := hv
          unfold isValidURL at hv2
          rw [urlPreprocess_eq_self_of_plain hplainPR] at hv2
          simp only [dropHttpProto_http rest] at hv2
          exact hv2
        obtain ⟨c0, r2, hr, hc0auth, hc0slash⟩ := rest_head_of_validHostPort hvv
        have hchunkne : rest.takeWhile (fun c => c != '/') ≠ [] := by
          rw [hr, List.takeWhile_cons, if_pos hc0slash]
          simp
        have hfp : firstProtoHost (jstr "http://" ++ rest) =
            some (jstr "http://" ++ rest.takeWhile (fun c => c != '/')) := by
          apply firstProtoHost_of_protoHostAt
          rw [protoHostAt_http,
            if_neg (by rw [isEmpty_false_of_ne hchunkne]; exact Bool.false_ne_true)]
        by_cases hinc : strIncludes (jstr "http://" ++ rest) wpJsonAmelia = true
        · rw [if_pos hinc] at h
          simp only [hfp] at h
          have hout := Option.some.inj h
          exact idem_branches (jstr "http://") (jstr "http:") rest out
            (by decide) (by decide) dropHttpProto_http matchesHttpProto_http
            hplainPR hstripPR hv (Or.inr hout.symm)
        · rw [if_neg hinc] at h
          have hout := Option.some.inj h
          exact idem_branches (jstr "http://") (jstr "http:") rest out
            (by decide) (by decide) dropHttpProto_http matchesHttpProto_http
            hplainPR hstripPR hv
            (Or.inl ⟨Bool.not_eq_true _ ▸ (by simpa using hinc), hout.symm⟩)
      · rw [if_neg hv] at h
        exact absurd h (by simp)
  · rw [if_neg hm] at h
    have hplainPR : ∀ c ∈ jstr "https://" ++ stripTrailingSlashes url,
        plainChar c = true := by
      intro c hc
      rcases List.mem_append.mp hc with hcp | hcc
      · have hall : ∀ x ∈ jstr "https://", plainChar x = true := by decide
        exact hall c hcp
      · exact hs0plain c hcc
    by_cases hv : isValidURL (jstr "https://" ++ stripTrailingSlashes url) = true
    · rw [if_pos hv] at h
      have hvv : validHostPort (afterLastAt
          ((stripTrailingSlashes url).takeWhile (fun c => ! isAuthDelim c))) = true := by
        have hv2 := hv
        unfold isValidURL at hv2
        rw [urlPreprocess_eq_self_of_plain hplainPR] at hv2
        simp only [dropHttpProto_https (stripTrailingSlashes url)] at hv2
        exact hv2
      obtain ⟨c0, r2, hr, hc0auth, hc0slash⟩ := rest_head_of_validHostPort hvv
      have hs0ne : stripTrailingSlashes url ≠ [] := by
        rw [hr]; simp
      have hstripPR : stripTrailingSlashes (jstr "https://" ++ stripTrailingSlashes url) =
          jstr "https://" ++ stripTrailingSlashes url :=
        stripTrailingSlashes_append_of_fixed (stripTrailingSlashes_idem url) hs0ne
      have hchunkne : (stripTrailingSlashes url).takeWhile (fun c => c != '/') ≠ [] := by
        rw [hr, List.takeWhile_cons, if_pos hc0slash]
        simp
      have hfp : firstProtoHost (jstr "https://" ++ stripTrailingSlashes url) =
          some (jstr "https://" ++
            (stripTrailingSlashes url).takeWhile (fun c => c != '/')) := by
        apply firstProtoHost_of_protoHostAt
        rw [protoHostAt_https,
          if_neg (by rw [isEmpty_false_of_ne hchunkne]; exact Bool.false_ne_true)]
      by_cases hinc : strIncludes (jstr "https://" ++ stripTrailingSlashes url)
          wpJsonAmelia = true
      · rw [if_pos hinc] at h
        simp only [hfp] at h
        have hout := Option.some.inj h
        exact idem_branches (jstr "https://") (jstr "https:") (stripTrailingSlashes url)
          out (by decide) (by decide) dropHttpProto_https matchesHttpProto_https
          hplainPR hstripPR hv (Or.inr hout.symm)
      · rw [if_neg hinc] at h
        have hout := Option.some.inj h
        exact idem_branches (jstr "https://") (jstr "https:") (stripTrailingSlashes url)
          out (by decide) (by decide) dropHttpProto_https matchesHttpProto_https
          hplainPR hstripPR hv
          (Or.inl ⟨Bool.not_eq_true _ ▸ (by simpa using hinc), hout.symm⟩)
    · rw [if_neg hv] at h
      exact absurd h (by simp)

/-- C4 amended witness: the idempotence theorem applied to the input
`https://x.com/wp-json/amelia/v1` (which exercises the plugin-path
reduction): its output `https://x.com` renormalizes to itself. -/
theorem cleanBaseUrl_idempotent_amended_witness :
    cleanBaseUrl (jstr "https://x.com") = some (jstr "https://x.com") :=
  cleanBaseUrl_idempotent_amended.1 (jstr "https://x.com/wp-json/amelia/v1")
    (jstr "https://x.com") (by decide) (by decide)

end AmeliaProxy
